import Mathlib

/-!
Verification development for the talisman-wfc repository (Go).

The model below is a shallow embedding of the canonical pipeline variant in
src/unnamed/part_002 (the full-featured program: regex classification chain,
nodeStatus / activeUsers maps, lastUser, countTodaysCalls committed to a
hard-wired excluded user, and a 500 ms ticker throttling redraws), together
with the startup behaviour of the variants in src/main.go where a claim
cites them.

Strings are modelled as `List Char`.  The six Go regular expressions are of
a restricted shape (literal segments, lazy `(.+?)` groups, greedy `(\d+)`
groups, one alternation of literal verbs); each is embedded as a dedicated
matcher implementing Go's leftmost-first (Perl-style) match semantics for
exactly that shape: candidate start positions are tried left to right, a
lazy group consumes one character at a time (never a newline, mirroring `.`)
and re-tries its continuation after each character, alternatives are tried
in written order, and a trailing `(\d+)` takes the maximal digit run.
-/

namespace TalismanWfc

/-- Strings as lists of characters.  Go's regexp engine operates on runes of
a UTF-8 string, which correspond to the `Char`s of `String.toList`. -/
abbrev Str := List Char

/-- Match a literal segment and continue: if `lit` is a prefix of `s`, run
the continuation `k` on the remainder, otherwise fail. -/
def litThen {α : Type} (lit : Str) (k : Str → Option α) (s : Str) : Option α :=
  if lit.isPrefixOf s then k (s.drop lit.length) else none

/-- Lazy group `(.+?)` followed by a continuation.  Consumes at least one
character; after each consumed character (which must not be a newline, as Go
`.` does not match newlines) the continuation is tried on the rest, shortest
match first, exactly as a backtracking engine treats a lazy group. -/
def lazyScan {α : Type} (k : Str → Option α) : Str → Option (Str × α)
  | [] => none
  | c :: rest =>
      if c = '\n' then none
      else
        match k rest with
        | some r => some ([c], r)
        | none =>
            match lazyScan k rest with
            | some (a, r) => some (c :: a, r)
            | none => none

/-- Greedy `(\d+)` at the end of a pattern: the maximal leading digit run,
failing when it is empty. -/
def digitsEnd (s : Str) : Option Str :=
  let d := s.takeWhile Char.isDigit
  if d = [] then none else some d

/-- The literal `INFO: ` opening every pattern of the source. -/
def infoLit : Str := "INFO: ".toList

/-- Unanchored search: all six patterns begin with the literal `INFO: `, so
the leftmost match of any of them starts at an occurrence of that literal.
Candidate start positions are tried left to right and the first position at
which the tail matcher succeeds wins, which is Go's leftmost-match rule. -/
def searchFrom {α : Type} (tailM : Str → Option α) : Str → Option α
  | [] => none
  | c :: rest =>
      match litThen infoLit tailM (c :: rest) with
      | some r => some r
      | none => searchFrom tailM rest

/-- Tail of `connectionPattern = INFO: Connection From: (.+?) on Node (\d+)`;
returns (remote address, node digits). -/
def connTail (s : Str) : Option (Str × Str) :=
  litThen "Connection From: ".toList (lazyScan (litThen " on Node ".toList digitsEnd)) s

/-- Tail of `loginPattern = INFO: (.+?) logged in on node (\d+)`;
returns (user, node digits). -/
def loginTail (s : Str) : Option (Str × Str) :=
  lazyScan (litThen " logged in on node ".toList digitsEnd) s

/-- Tail of `newUserPattern = INFO: New user signing up on node (\d+)`;
returns the node digits. -/
def newUserTail (s : Str) : Option Str :=
  litThen "New user signing up on node ".toList digitsEnd s

/-- Tail of `menuPattern = INFO: (.+?) loading menu (.+?) on node (\d+)`;
returns (user, menu path, node digits). -/
def menuTail (s : Str) : Option (Str × Str × Str) :=
  (lazyScan (litThen " loading menu ".toList
      (lazyScan (litThen " on node ".toList digitsEnd))) s).map
    fun p => (p.1, p.2.1, p.2.2)

/-- The verb alternation of `logPattern`, in the order written in the
source: `(logged in|loading menu|running door|running script|listing
messages|posting a message)`. -/
def verbList : List Str :=
  ["logged in".toList, "loading menu".toList, "running door".toList,
   "running script".toList, "listing messages".toList, "posting a message".toList]

/-- Alternation of literal alternatives, tried in order; each alternative is
committed only if the continuation after it succeeds (backtracking). -/
def altThen {α : Type} (k : Str → Str → Option α) : List Str → Str → Option α
  | [], _ => none
  | v :: vs, s =>
      match litThen v (k v) s with
      | some r => some r
      | none => altThen k vs s

/-- Tail of `logPattern = INFO: (.+?) (logged in|loading menu|running
door|running script|listing messages|posting a message) (.+?) on node
(\d+)`; returns (user, verb, location text, node digits). -/
def genericTail (s : Str) : Option (Str × Str × Str × Str) :=
  (lazyScan (litThen " ".toList (fun s1 =>
      altThen (fun v => litThen " ".toList (fun s3 =>
          (lazyScan (litThen " on node ".toList digitsEnd) s3).map
            fun p => (v, p)))
        verbList s1)) s).map
    fun p => (p.1, p.2.1, p.2.2.1, p.2.2.2)

/-- Tail of `disconnectPattern = INFO: Node (\d+) logged off`; the greedy
digit run must be followed by the literal ` logged off` (a shorter digit run
would be followed by a digit, not a space, so the maximal run is the only
candidate). -/
def disconnectTail (s : Str) : Option Str :=
  litThen "Node ".toList (fun r =>
    let d := r.takeWhile Char.isDigit
    if d = [] then none
    else if " logged off".toList.isPrefixOf (r.drop d.length) then some d else none) s

/-- `connectionPattern.FindStringSubmatch`: (remote address, node digits). -/
def connMatch (line : Str) : Option (Str × Str) := searchFrom connTail line

/-- `loginPattern.FindStringSubmatch`: (user, node digits). -/
def loginMatch (line : Str) : Option (Str × Str) := searchFrom loginTail line

/-- `newUserPattern.FindStringSubmatch`: node digits. -/
def newUserMatch (line : Str) : Option Str := searchFrom newUserTail line

/-- `menuPattern.FindStringSubmatch`: (user, menu path, node digits). -/
def menuMatch (line : Str) : Option (Str × Str × Str) := searchFrom menuTail line

/-- `logPattern.FindStringSubmatch`: (user, verb, location, node digits). -/
def genericMatch (line : Str) : Option (Str × Str × Str × Str) := searchFrom genericTail line

/-- `disconnectPattern.FindStringSubmatch`: node digits. -/
def disconnectMatch (line : Str) : Option Str := searchFrom disconnectTail line

/-! Go string helpers used by the pipeline. -/

/-- Go `strings.TrimPrefix`. -/
def goTrimPre (pre s : Str) : Str :=
  if pre.isPrefixOf s then s.drop pre.length else s

/-- Go `strings.TrimSuffix`. -/
def goTrimSuf (suf s : Str) : Str :=
  if suf.isSuffixOf s then s.take (s.length - suf.length) else s

/-- Go `strings.Title` word-boundary test (its internal `isSeparator`): for
ASCII, everything except letters, digits and underscore is a separator.
Characters above 0x7F are treated as non-separators here; Go additionally
treats non-ASCII Unicode spaces as separators, which no input of this
development contains. -/
def goIsSeparator (c : Char) : Bool :=
  if c.toNat ≤ 0x7F then
    !(('0' ≤ c && c ≤ '9') || ('a' ≤ c && c ≤ 'z') || ('A' ≤ c && c ≤ 'Z') || c = '_')
  else false

/-- Title-casing of one rune (Go `unicode.ToTitle`), restricted to ASCII
letters as `Char.toUpper` is; non-ASCII runes are left unchanged. -/
def goToTitleChar (c : Char) : Char := c.toUpper

/-- Worker for `goTitle`, carrying the previous rune (Go starts it at a
space, so the first rune is at a word boundary). -/
def goTitleAux : Char → Str → Str
  | _, [] => []
  | prev, c :: rest =>
      if goIsSeparator prev then goToTitleChar c :: goTitleAux c rest
      else c :: goTitleAux c rest

/-- Go `strings.Title`: title-case every rune that begins a word. -/
def goTitle (s : Str) : Str := goTitleAux ' ' s

/-- Go `filepath.Base` on slash-separated paths: `.` for the empty path, a
single `/` for all-separator paths, otherwise the last path component after
removing trailing slashes. -/
def goBase (s : Str) : Str :=
  if s = [] then ['.']
  else
    let r := s.reverse.dropWhile (fun c => c == '/')
    if r = [] then ['/']
    else (r.takeWhile (fun c => c != '/')).reverse

/-- Decimal value of a digit run. -/
def atoiNat (s : Str) : Nat := s.foldl (fun acc c => acc * 10 + (c.toNat - 48)) 0

/-- Go `strconv.Atoi` as used by the source on a `(\d+)` capture with the
error ignored: the decimal value, clamped at `math.MaxInt64` (on range
overflow Go returns the clamped value together with an error the source
discards). -/
def goAtoi (s : Str) : Nat := min (atoiNat s) (2 ^ 63 - 1)

/-! Fixed display strings of the source. -/

/-- Display text `Unknown User` shown on a connection. -/
def unknownUser : Str := "Unknown User".toList

/-- Display text `logging in...` shown on a login. -/
def loggingIn : Str := "logging in...".toList

/-- Placeholder identity `New User`. -/
def newUserText : Str := "New User".toList

/-- Display text `Signing up...` for a new-user signup. -/
def signingUp : Str := "Signing up...".toList

/-- Idle-row user sentinel `waiting for caller`. -/
def waitingForCaller : Str := "waiting for caller".toList

/-- Idle-row location sentinel `-`. -/
def idleDash : Str := "-".toList

/-- Initial last-user sentinel `None`. -/
def noneUser : Str := "None".toList

/-- Hard-wired excluded username of the source (`var excludeUser`). -/
def excludeUser : Str := "j0hnny a1pha".toList

/-! Association lists standing in for the Go maps (`map[string]NodeStatus`
and `map[string]string`); iteration order of Go maps is unspecified and no
claim depends on it, only lookup, insert and delete are used. -/

/-- Lookup in an association list (Go `m[k]` with the `ok` flag). -/
def lookupA {β : Type} (k : Str) : List (Str × β) → Option β
  | [] => none
  | (k', v) :: rest => if k = k' then some v else lookupA k rest

/-- Remove every binding of a key (Go `delete(m, k)`; keys are unique in a
Go map, erasing all occurrences keeps the model's lemmas unconditional). -/
def eraseA {β : Type} (k : Str) : List (Str × β) → List (Str × β)
  | [] => []
  | (k', v) :: rest => if k = k' then eraseA k rest else (k', v) :: eraseA k rest

/-- Insert or replace a binding (Go `m[k] = v`). -/
def insertA {β : Type} (k : Str) (v : β) (m : List (Str × β)) : List (Str × β) :=
  (k, v) :: eraseA k m

/-! The data model. -/

/-- One row of the display table (Go `type NodeStatus struct`). -/
structure NodeStatus where
  user : Str
  location : Str
deriving DecidableEq, Repr

/-- A classified log line, one constructor per pattern of the source.  The
node id is kept as the captured digit string, exactly as the source keys its
maps by the captured substring. -/
inductive Event where
  | connect (node remoteAddr : Str)
  | login (node user : Str)
  | newUserSignup (node : Str)
  | menuChange (node user menuPath : Str)
  | genericActivity (node user verb location : Str)
  | disconnect (node : Str)
deriving DecidableEq, Repr

/-- The mutable state owned by the update goroutine of the source:
`nodeStatus` (SessionTable), `activeUsers` (ActiveUserIndex) and `lastUser`
(LastLoggedOffUser).  `todaysCalls` is recomputed from the log file by
`countTodaysCalls` and modelled separately. -/
structure WfcState where
  nodeStatus : List (Str × NodeStatus)
  activeUsers : List (Str × Str)
  lastUser : Str
deriving DecidableEq, Repr

/-- The empty store: no occupied node, no active user, last user `None`. -/
def initState : WfcState := ⟨[], [], noneUser⟩

/-! The session-state store.  `applyEvent` is the per-branch state update of
the goroutine in src/unnamed/part_002 (lines 328-391), split from
classification; `processLine` below is the branch chain exactly as written
there, and `processLine_eq` proves the two decompositions agree.  Each
branch also returns the `updatedNodes` entry the source records for the
redraw (`map[int]NodeStatus`, keyed by `strconv.Atoi` of the capture; every
branch writes exactly one key).  The `countTodaysCalls` recomputation the
source performs on login and disconnect reads the log file and is modelled
by `countTodaysCalls` separately. -/
def applyEvent (st : WfcState) (e : Event) : WfcState × List (Nat × NodeStatus) :=
  match e with
  | .connect node ip =>
      let status : NodeStatus := ⟨unknownUser, ip⟩
      ({ st with nodeStatus := insertA node status st.nodeStatus },
       [(goAtoi node, status)])
  | .login node user =>
      let status : NodeStatus := ⟨user, loggingIn⟩
      ({ st with nodeStatus := insertA node status st.nodeStatus,
                 activeUsers := insertA node user st.activeUsers },
       [(goAtoi node, status)])
  | .newUserSignup node =>
      let status : NodeStatus := ⟨newUserText, signingUp⟩
      ({ st with nodeStatus := insertA node status st.nodeStatus },
       [(goAtoi node, status)])
  | .menuChange node user menuPath =>
      let menuName := goTitle (goTrimSuf ".toml".toList (goBase menuPath))
      let status : NodeStatus := ⟨user, "At ".toList ++ menuName ++ " Menu".toList⟩
      ({ st with nodeStatus := insertA node status st.nodeStatus },
       [(goAtoi node, status)])
  | .genericActivity node user _verb loc =>
      let l1 := goTrimPre "menu ".toList loc
      let l2 := goTrimPre "menus/".toList l1
      let l3 := goTrimSuf ".toml".toList l2
      let status : NodeStatus := ⟨user, "At ".toList ++ goTitle l3⟩
      ({ st with nodeStatus := insertA node status st.nodeStatus },
       [(goAtoi node, status)])
  | .disconnect node =>
      let lastUser' :=
        match lookupA node st.activeUsers with
        | some u => if u = newUserText then st.lastUser else u
        | none => st.lastUser
      ({ nodeStatus := eraseA node st.nodeStatus,
         activeUsers := eraseA node st.activeUsers,
         lastUser := lastUser' },
       [(goAtoi node, ⟨waitingForCaller, idleDash⟩)])

/-- The classification decision of the goroutine's branch chain: the six
patterns are tried in the order written in src/unnamed/part_002, namely
connection, login, new user, menu, generic activity, disconnect, and the
first match produces the event. -/
def classify (line : Str) : Option Event :=
  match connMatch line with
  | some (ip, node) => some (.connect node ip)
  | none =>
  match loginMatch line with
  | some (user, node) => some (.login node user)
  | none =>
  match newUserMatch line with
  | some node => some (.newUserSignup node)
  | none =>
  match menuMatch line with
  | some (user, menuPath, node) => some (.menuChange node user menuPath)
  | none =>
  match genericMatch line with
  | some (user, verb, loc, node) => some (.genericActivity node user verb loc)
  | none =>
  match disconnectMatch line with
  | some node => some (.disconnect node)
  | none => none

/-- The body of the goroutine's `case line := <-t.Lines`, translated branch
by branch from src/unnamed/part_002 lines 326-391: each pattern is tried in
order, the matching branch mutates the state and records the single
`updatedNodes` entry, and a line matching no pattern changes nothing. -/
def processLine (st : WfcState) (line : Str) : WfcState × List (Nat × NodeStatus) :=
  match connMatch line with
  | some (ip, node) =>
      let status : NodeStatus := ⟨unknownUser, ip⟩
      ({ st with nodeStatus := insertA node status st.nodeStatus },
       [(goAtoi node, status)])
  | none =>
  match loginMatch line with
  | some (user, node) =>
      let status : NodeStatus := ⟨user, loggingIn⟩
      ({ st with nodeStatus := insertA node status st.nodeStatus,
                 activeUsers := insertA node user st.activeUsers },
       [(goAtoi node, status)])
  | none =>
  match newUserMatch line with
  | some node =>
      let status : NodeStatus := ⟨newUserText, signingUp⟩
      ({ st with nodeStatus := insertA node status st.nodeStatus },
       [(goAtoi node, status)])
  | none =>
  match menuMatch line with
  | some (user, menuPath, node) =>
      let menuName := goTitle (goTrimSuf ".toml".toList (goBase menuPath))
      let status : NodeStatus := ⟨user, "At ".toList ++ menuName ++ " Menu".toList⟩
      ({ st with nodeStatus := insertA node status st.nodeStatus },
       [(goAtoi node, status)])
  | none =>
  match genericMatch line with
  | some (user, _verb, loc, node) =>
      let l1 := goTrimPre "menu ".toList loc
      let l2 := goTrimPre "menus/".toList l1
      let l3 := goTrimSuf ".toml".toList l2
      let status : NodeStatus := ⟨user, "At ".toList ++ goTitle l3⟩
      ({ st with nodeStatus := insertA node status st.nodeStatus },
       [(goAtoi node, status)])
  | none =>
  match disconnectMatch line with
  | some node =>
      let lastUser' :=
        match lookupA node st.activeUsers with
        | some u => if u = newUserText then st.lastUser else u
        | none => st.lastUser
      ({ nodeStatus := eraseA node st.nodeStatus,
         activeUsers := eraseA node st.activeUsers,
         lastUser := lastUser' },
       [(goAtoi node, ⟨waitingForCaller, idleDash⟩)])
  | none => (st, [])

/-- Fold a list of events through the store. -/
def applyEvents (st : WfcState) (es : List Event) : WfcState :=
  es.foldl (fun s e => (applyEvent s e).1) st

/-! Classification as an ordered rule list, for stating priority-order
claims: one rule per pattern, and a first-match combinator. -/

/-- Rule for `connectionPattern`. -/
def ruleConnect (l : Str) : Option Event := (connMatch l).map fun p => .connect p.2 p.1

/-- Rule for `loginPattern`. -/
def ruleLogin (l : Str) : Option Event := (loginMatch l).map fun p => .login p.2 p.1

/-- Rule for `newUserPattern`. -/
def ruleNewUser (l : Str) : Option Event := (newUserMatch l).map .newUserSignup

/-- Rule for `menuPattern`. -/
def ruleMenu (l : Str) : Option Event :=
  (menuMatch l).map fun p => .menuChange p.2.2 p.1 p.2.1

/-- Rule for `logPattern` (generic activity). -/
def ruleGeneric (l : Str) : Option Event :=
  (genericMatch l).map fun p => .genericActivity p.2.2.2 p.1 p.2.1 p.2.2.1

/-- Rule for `disconnectPattern`. -/
def ruleDisconnect (l : Str) : Option Event := (disconnectMatch l).map .disconnect

/-- First-match evaluation of an ordered rule list: rules are tried in list
order and evaluation stops at the first rule that produces an event. -/
def firstSome (rules : List (Str → Option Event)) (l : Str) : Option Event :=
  match rules with
  | [] => none
  | r :: rs =>
      match r l with
      | some e => some e
      | none => firstSome rs l

/-- The rule order actually written in src/unnamed/part_002: connection,
login, new user, menu, generic activity, disconnect. -/
def codeRuleOrder : List (Str → Option Event) :=
  [ruleConnect, ruleLogin, ruleNewUser, ruleMenu, ruleGeneric, ruleDisconnect]

/-- Modelled from the spec: the rule order the specification requires,
`Connect > NewUserSignup > Login > MenuChange > GenericActivity >
Disconnect` (new-user before login, unlike the source). -/
def specRuleOrder : List (Str → Option Event) :=
  [ruleConnect, ruleNewUser, ruleLogin, ruleMenu, ruleGeneric, ruleDisconnect]

/-- Modelled from the spec: classification following the specification's
required priority order. -/
def specOrderClassify (l : Str) : Option Event := firstSome specRuleOrder l

/-! The statistics aggregator. -/

/-- The loop body of `countTodaysCalls` (src/unnamed/part_002 lines 83-97):
a line increments the count when it starts with today's date, matches
`loginPattern`, and its user is not the excluded one. -/
def countStep (exclude today : Str) (count : Nat) (line : Str) : Nat :=
  if today.isPrefixOf line then
    match loginMatch line with
    | some (user, _) => if user = exclude then count else count + 1
    | none => count
  else count

/-- `countTodaysCalls` of src/unnamed/part_002 (lines 69-104), over the
scanned lines of the log file, parameterised by the excluded username the
source keeps in the package variable `excludeUser` and by the current date
string `time.Now().Format("2006-01-02")`. -/
def countTodaysCallsW (exclude today : Str) (lines : List Str) : Nat :=
  lines.foldl (countStep exclude today) 0

/-- `countTodaysCalls` with the source's hard-wired excluded user. -/
def countTodaysCalls (today : Str) (lines : List Str) : Nat :=
  countTodaysCallsW excludeUser today lines

/-- Whether a line qualifies for the daily count: today's date prefix, a
login match, and a non-excluded user. -/
def qualifiesToday (exclude today line : Str) : Bool :=
  today.isPrefixOf line &&
    (match loginMatch line with
     | some (user, _) => decide ¬user = exclude
     | none => false)

/-- The login half of one scan step of `findLastLoggedOffUser`
(src/unnamed/part_002 lines 192-197): a login match records the user under
its node in the scratch map. -/
def scanLogin (acc : Str × List (Str × Str)) (line : Str) : Str × List (Str × Str) :=
  match loginMatch line with
  | some (user, node) => (acc.1, insertA node user acc.2)
  | none => acc

/-- One line of the startup scan of `findLastLoggedOffUser`
(src/unnamed/part_002 lines 191-205): the login check, then the disconnect
check — a disconnect match whose node has a recorded user makes that user
the last logged-off user.  Both checks run on the same line (they are two
independent `if`s in the source). -/
def scanLine (acc : Str × List (Str × Str)) (line : Str) : Str × List (Str × Str) :=
  match disconnectMatch line with
  | some node =>
      match lookupA node (scanLogin acc line).2 with
      | some u => (u, (scanLogin acc line).2)
      | none => scanLogin acc line
  | none => scanLogin acc line

/-- `findLastLoggedOffUser` of src/unnamed/part_002 (lines 171-207): scan
the last `numLines` lines of the log (`lines[max(0, len(lines)-numLines):]`,
which is `drop` with saturating subtraction) with a scratch active-user map,
starting from the sentinel `None`. -/
def findLastLoggedOffUser (lines : List Str) (numLines : Nat) : Str :=
  let window := lines.drop (lines.length - numLines)
  (window.foldl scanLine (noneUser, [])).1

/-- The same function including its error path: when tailing the log file
fails, the source logs the error and returns `None`. -/
def findLastLoggedOffUserFromFile (fileLines : Option (List Str)) (numLines : Nat) : Str :=
  match fileLines with
  | none => noneUser
  | some lines => findLastLoggedOffUser lines numLines

/-- The nodes with a login event seen so far, after one more line. -/
def seenAfter (seen : List Str) (l : Str) : List Str :=
  match loginMatch l with
  | some p => p.2 :: seen
  | none => seen

/-- Whether a scan window contains a disconnect event whose node has a login
event at an earlier, or the same, line (the source processes the login `if`
of a line before its disconnect `if`, so a single line matching both
patterns for the same node completes a pairing).  `seen` carries the nodes
with a login event so far. -/
def pairScan (seen : List Str) : List Str → Bool
  | [] => false
  | l :: rest =>
      (match disconnectMatch l with
       | some n => decide (n ∈ seenAfter seen l)
       | none => false) || pairScan (seenAfter seen l) rest

/-! The redraw interface. -/

/-- `strconv.Itoa` of a node number. -/
def natDigits (n : Nat) : Str := (Nat.repr n).toList

/-- The rows drawn by `DrawTable` (src/unnamed/part_002 lines 159-168): one
row per node id `1..maxNodes` in order, showing the stored status or the
idle sentinel pair. -/
def drawTableRows (maxNodes : Nat) (ns : List (Str × NodeStatus)) : List (Nat × NodeStatus) :=
  (List.range' 1 maxNodes).map fun i =>
    (i,
      match lookupA (natDigits i) ns with
      | some s => s
      | none => ⟨waitingForCaller, idleDash⟩)

/-! The update goroutine with its ticker (src/unnamed/part_002 lines
317-416).  The outer `select` only receives log lines; the ticker is
polled non-blockingly inside the line handler (`select` with a `default`),
so the 1-buffered ticker channel is modelled as a pending flag: a tick sets
it (further ticks while it is set are dropped by the channel), and a line
processed while it is set performs the redraw of that line's updated nodes
and clears it.  A line processed with no tick pending performs no redraw,
and its `updatedNodes` map (rebuilt for every line) is discarded. -/

/-- An input to the update loop: a new log line, or a ticker firing. -/
inductive LoopIn where
  | line (text : Str)
  | tick
deriving DecidableEq, Repr

/-- The loop's state: the store, the pending-tick flag, and the trace of
redraws handed to the terminal, each being the `updatedNodes` rows drawn by
`DrawTableRow` (the redraw also reprints `lastUser` and the call count,
which the store already carries). -/
structure LoopState where
  st : WfcState
  tickPending : Bool
  emitted : List (List (Nat × NodeStatus))
deriving DecidableEq, Repr

/-- One step of the update goroutine. -/
def loopStep (ls : LoopState) (i : LoopIn) : LoopState :=
  match i with
  | .tick => { ls with tickPending := true }
  | .line text =>
      let r := processLine ls.st text
      if ls.tickPending then
        { st := r.1, tickPending := false, emitted := ls.emitted ++ [r.2] }
      else
        { st := r.1, tickPending := ls.tickPending, emitted := ls.emitted }

/-- Run the update goroutine from the start state (empty store, no tick
pending yet, nothing drawn). -/
def runLoop (inputs : List LoopIn) : LoopState :=
  inputs.foldl loopStep ⟨initState, false, []⟩

/-! Startup handling of an absent log file. -/

/-- What startup does before the pipeline: abort the process, or proceed
with an initial log. -/
inductive StartupOutcome where
  | fatal
  | proceed (initialLog : List Str)
deriving DecidableEq, Repr

/-- The startup check of both programs in src/main.go (lines 120-122 and
378-380): `os.Stat` failing with not-exists is `log.Fatalf`, otherwise the
pipeline starts from the existing log. -/
def startupMainGo (logExists : Bool) (logLines : List Str) : StartupOutcome :=
  if logExists then .proceed logLines else .fatal

/-- The startup check of src/unnamed/part_002 (lines 279-284): when the log
file does not exist the source logs `Starting with an empty log.`, creates
the file, and the pipeline starts from an empty log. -/
def startupWfc (logExists : Bool) (logLines : List Str) : StartupOutcome :=
  if logExists then .proceed logLines else .proceed []

/-! Modelled location formatting, for refinement comparison. -/

/-- Modelled from the spec: "strip a trailing file-extension suffix" — the
text from the final dot on is removed when a dot is present. -/
def stripExtSpec (s : Str) : Str :=
  let r := s.reverse
  if r.contains '.' then ((r.dropWhile (fun c => c != '.')).drop 1).reverse else s

/-- Modelled from the spec: the LocationFormatter the specification
describes — strip a leading `menu ` token, strip a leading `menus/` path
prefix, strip a trailing file-extension suffix, title-case the remaining
words, and prepend the fixed `At ` label. -/
def specLocationFormatter (loc : Str) : Str :=
  "At ".toList ++
    goTitle (stripExtSpec (goTrimPre "menus/".toList (goTrimPre "menu ".toList loc)))

/-- The location text the generic-activity branch of the source actually
stores (src/unnamed/part_002 lines 369-373): strip `menu `, strip `menus/`,
strip the literal `.toml` suffix, title-case, prepend `At `. -/
def formatGenericLocation (loc : Str) : Str :=
  "At ".toList ++
    goTitle (goTrimSuf ".toml".toList (goTrimPre "menus/".toList (goTrimPre "menu ".toList loc)))

/-- The location text the menu branch of the source actually stores
(src/unnamed/part_002 lines 359-361): `At ` + Title(basename with `.toml`
stripped) + ` Menu`. -/
def formatMenuLocation (menuPath : Str) : Str :=
  "At ".toList ++ goTitle (goTrimSuf ".toml".toList (goBase menuPath)) ++ " Menu".toList

/-! Concrete log lines and inputs used to settle the claims. -/

/-- A line matching both `newUserPattern` (node 1) and `loginPattern`
(node 2, with the new-user text as the captured user), separating the
source's login-before-new-user rule order from the specified
new-user-before-login order. -/
def trickyLine : Str := "INFO: New user signing up on node 1 logged in on node 2".toList

/-- A connection line for node 3. -/
def lineConn3 : Str := "INFO: Connection From: 1.2.3.4 on Node 3".toList

/-- A login line for node 3. -/
def lineLogin3 : Str := "INFO: bob logged in on node 3".toList

/-- A login line for node 9, outside a 4-node display. -/
def lineLogin9 : Str := "INFO: carol logged in on node 9".toList

/-- Same-day login line for alice. -/
def lineAliceA : Str := "2024-01-02 10:00:00 [77]  INFO: alice logged in on node 1".toList

/-- Same-day login line for bob. -/
def lineBobB : Str := "2024-01-02 10:05:00 [78]  INFO: bob logged in on node 2".toList

/-- A second same-day login line for alice. -/
def lineAliceC : Str := "2024-01-02 10:10:00 [79]  INFO: alice logged in on node 1".toList

/-- The event trace of the specification's worked example. -/
def exampleTrace : List Event :=
  [.connect ['1'] "1.2.3.4".toList,
   .login ['1'] "bob".toList,
   .menuChange ['1'] "bob".toList "menus/main.toml".toList,
   .disconnect ['1']]

/-! Lemmas about the association-list map operations. -/

/-- Looking up the freshly inserted key yields the inserted value. -/
theorem lookupA_insert_self {β : Type} (k : Str) (v : β) (m : List (Str × β)) :
    lookupA k (insertA k v m) = some v := by
  simp [insertA, lookupA]

/-- Erasing one key leaves the other keys' lookups unchanged. -/
theorem lookupA_erase_ne {β : Type} {k k' : Str} (h : k' ≠ k) (m : List (Str × β)) :
    lookupA k' (eraseA k m) = lookupA k' m := by
  induction m with
  | nil => rfl
  | cons p rest ih =>
      obtain ⟨a, b⟩ := p
      by_cases hak : k = a
      · subst hak
        simp [eraseA, lookupA, ih, h]
      · simp [eraseA, lookupA, hak, ih]

/-- Looking up an erased key fails. -/
theorem lookupA_erase_self {β : Type} (k : Str) (m : List (Str × β)) :
    lookupA k (eraseA k m) = none := by
  induction m with
  | nil => rfl
  | cons p rest ih =>
      obtain ⟨a, b⟩ := p
      by_cases hak : k = a
      · subst hak
        simp [eraseA, ih]
      · simp [eraseA, lookupA, hak, ih]

/-- Inserting under one key leaves the other keys' lookups unchanged. -/
theorem lookupA_insert_ne {β : Type} {k k' : Str} (h : k' ≠ k) (v : β) (m : List (Str × β)) :
    lookupA k' (insertA k v m) = lookupA k' m := by
  simp [insertA, lookupA, h, lookupA_erase_ne h]

/-- The branch chain of the goroutine is classification followed by the
per-event state update: `processLine` agrees with `classify` plus
`applyEvent` on every state and line. -/
theorem processLine_eq (st : WfcState) (line : Str) :
    processLine st line =
      match classify line with
      | some e => applyEvent st e
      | none => (st, []) := by
  cases h1 : connMatch line with
  | some p =>
      obtain ⟨ip, node⟩ := p
      simp [processLine, classify, h1, applyEvent]
  | none =>
  cases h2 : loginMatch line with
  | some p =>
      obtain ⟨user, node⟩ := p
      simp [processLine, classify, h1, h2, applyEvent]
  | none =>
  cases h3 : newUserMatch line with
  | some node =>
      simp [processLine, classify, h1, h2, h3, applyEvent]
  | none =>
  cases h4 : menuMatch line with
  | some p =>
      obtain ⟨user, menuPath, node⟩ := p
      simp [processLine, classify, h1, h2, h3, h4, applyEvent]
  | none =>
  cases h5 : genericMatch line with
  | some p =>
      obtain ⟨user, verb, loc, node⟩ := p
      simp [processLine, classify, h1, h2, h3, h4, h5, applyEvent]
  | none =>
  cases h6 : disconnectMatch line with
  | some node =>
      simp [processLine, classify, h1, h2, h3, h4, h5, h6, applyEvent]
  | none =>
      simp [processLine, classify, h1, h2, h3, h4, h5, h6]

/-- One event preserves the inclusion of the active-user keys in the
node-status keys: every event that records an identity also records a
status under the same key, and a disconnect removes both. -/
theorem subKeys_applyEvent (st : WfcState) (e : Event)
    (h : ∀ k, (lookupA k st.activeUsers).isSome = true →
              (lookupA k st.nodeStatus).isSome = true) :
    ∀ k, (lookupA k (applyEvent st e).1.activeUsers).isSome = true →
         (lookupA k (applyEvent st e).1.nodeStatus).isSome = true := by
  intro k hk
  cases e with
  | connect node ip =>
      simp only [applyEvent] at hk ⊢
      by_cases hkn : k = node
      · subst hkn; simp [lookupA_insert_self]
      · rw [lookupA_insert_ne hkn]; exact h k hk
  | login node user =>
      simp only [applyEvent] at hk ⊢
      by_cases hkn : k = node
      · subst hkn; simp [lookupA_insert_self]
      · rw [lookupA_insert_ne hkn]
        rw [lookupA_insert_ne hkn] at hk
        exact h k hk
  | newUserSignup node =>
      simp only [applyEvent] at hk ⊢
      by_cases hkn : k = node
      · subst hkn; simp [lookupA_insert_self]
      · rw [lookupA_insert_ne hkn]; exact h k hk
  | menuChange node user menuPath =>
      simp only [applyEvent] at hk ⊢
      by_cases hkn : k = node
      · subst hkn; simp [lookupA_insert_self]
      · rw [lookupA_insert_ne hkn]; exact h k hk
  | genericActivity node user verb loc =>
      simp only [applyEvent] at hk ⊢
      by_cases hkn : k = node
      · subst hkn; simp [lookupA_insert_self]
      · rw [lookupA_insert_ne hkn]; exact h k hk
  | disconnect node =>
      simp only [applyEvent] at hk ⊢
      by_cases hkn : k = node
      · subst hkn; simp [lookupA_erase_self] at hk
      · rw [lookupA_erase_ne hkn]
        rw [lookupA_erase_ne hkn] at hk
        exact h k hk

/-- The active-user/node-status key inclusion is preserved by any event
sequence. -/
theorem subKeys_applyEvents (es : List Event) (st : WfcState)
    (h : ∀ k, (lookupA k st.activeUsers).isSome = true →
              (lookupA k st.nodeStatus).isSome = true) :
    ∀ k, (lookupA k (applyEvents st es).activeUsers).isSome = true →
         (lookupA k (applyEvents st es).nodeStatus).isSome = true := by
  induction es generalizing st with
  | nil => exact h
  | cons e rest ih =>
      have hstep := subKeys_applyEvent st e h
      have : applyEvents st (e :: rest) = applyEvents (applyEvent st e).1 rest := rfl
      rw [this]
      exact ih (applyEvent st e).1 hstep

/-- If the scratch scan of a window finds no disconnect whose node already
has a recorded login — `pairScan` stays false — then the folded scan never
changes the carried last-user value. -/
theorem scanFold_of_pairScan (w : List Str) :
    ∀ (seen : List Str) (au : List (Str × Str)) (last : Str),
      (∀ n, (lookupA n au).isSome = true → n ∈ seen) →
      pairScan seen w = false →
      (w.foldl scanLine (last, au)).1 = last := by
  induction w with
  | nil => intro seen au last _ _; rfl
  | cons l rest ih =>
      intro seen au last hdom hps
      rw [pairScan, Bool.or_eq_false_iff] at hps
      obtain ⟨hdis, hrest⟩ := hps
      have hlogfst : (scanLogin (last, au) l).1 = last := by
        cases hlm : loginMatch l with
        | some p => obtain ⟨u, n⟩ := p; simp [scanLogin, hlm]
        | none => simp [scanLogin, hlm]
      have hdom1 : ∀ n, (lookupA n (scanLogin (last, au) l).2).isSome = true →
          n ∈ seenAfter seen l := by
        intro n hn
        cases hlm : loginMatch l with
        | some p =>
            obtain ⟨u, nd⟩ := p
            simp only [scanLogin, hlm] at hn
            simp only [seenAfter, hlm]
            by_cases hnnd : n = nd
            · subst hnnd; exact List.mem_cons_self _ _
            · rw [lookupA_insert_ne hnnd] at hn
              exact List.mem_cons_of_mem _ (hdom n hn)
        | none =>
            simp only [scanLogin, hlm] at hn
            simp only [seenAfter, hlm]
            exact hdom n hn
      have hfst : (scanLine (last, au) l).1 = last := by
        cases hdm : disconnectMatch l with
        | some n =>
            have hdis' : decide (n ∈ seenAfter seen l) = false := by
              rw [hdm] at hdis; exact hdis
            cases hlk : lookupA n (scanLogin (last, au) l).2 with
            | some u =>
                exfalso
                have hmem := hdom1 n (by rw [hlk]; rfl)
                rw [decide_eq_true hmem] at hdis'
                exact absurd hdis' (by simp)
            | none => simp [scanLine, hdm, hlk, hlogfst]
        | none => simp [scanLine, hdm, hlogfst]
      have hsnd : (scanLine (last, au) l).2 = (scanLogin (last, au) l).2 := by
        cases hdm : disconnectMatch l with
        | some n =>
            cases hlk : lookupA n (scanLogin (last, au) l).2 with
            | some u => simp [scanLine, hdm, hlk]
            | none => simp [scanLine, hdm, hlk]
        | none => simp [scanLine, hdm]
      have hexp : scanLine (last, au) l = (last, (scanLogin (last, au) l).2) :=
        Prod.ext hfst hsnd
      rw [List.foldl_cons, hexp]
      exact ih (seenAfter seen l) (scanLogin (last, au) l).2 last hdom1 hrest

/-- One counting step increments exactly on a qualifying line. -/
theorem countStep_eq (exclude today l : Str) (n : Nat) :
    countStep exclude today n l =
      if qualifiesToday exclude today l then n + 1 else n := by
  unfold countStep qualifiesToday
  by_cases hp : today.isPrefixOf l = true
  · cases hm : loginMatch l with
    | some p =>
        obtain ⟨user, nd⟩ := p
        by_cases hu : user = exclude
        · simp [hp, hm, hu]
        · simp [hp, hm, hu]
    | none => simp [hp, hm]
  · have hp' : today.isPrefixOf l = false := by
      cases hv : today.isPrefixOf l with
      | true => exact absurd hv hp
      | false => rfl
    simp [hp']

/-- The daily-call fold of `countTodaysCallsW` counts the qualifying lines,
whatever count it starts from. -/
theorem countFold_eq (exclude today : Str) (lines : List Str) :
    ∀ n : Nat,
      lines.foldl (countStep exclude today) n =
        n + (lines.filter (qualifiesToday exclude today)).length := by
  induction lines with
  | nil => intro n; simp
  | cons l rest ih =>
      intro n
      rw [List.foldl_cons, countStep_eq, List.filter_cons]
      by_cases hq : qualifiesToday exclude today l = true
      · rw [if_pos hq, if_pos hq, ih]
        simp [List.length_cons]
        omega
      · have hq' : qualifiesToday exclude today l = false := by
          cases hv : qualifiesToday exclude today l with
          | true => exact absurd hv hq
          | false => rfl
        rw [if_neg (by simp [hq']), if_neg (by simp [hq']), ih]

/-- Mapping first projection over a graph-style pairing returns the input
list. -/
theorem map_pair_fst {α β : Type} (g : α → β) (xs : List α) :
    (xs.map (fun i => (i, g i))).map Prod.fst = xs := by
  induction xs with
  | nil => rfl
  | cons x rest ih => simp [ih]

/-! The claims. -/

/-- C1: Disconnect removes the node from both the session table and the
active-user index; the last logged-off user becomes the prior active-user
entry exactly when that entry exists and is not `New User`, and is
unchanged otherwise.  Applying Connect(1,"1.2.3.4"), Login(1,"bob"),
MenuChange(1,"bob","menus/main.toml"), Disconnect(1) in order from the
empty state leaves node 1 idle and sets the last logged-off user to
`bob`. -/
theorem c1_disconnect_semantics :
    (∀ (st : WfcState) (node : Str),
       lookupA node (applyEvent st (.disconnect node)).1.nodeStatus = none ∧
       lookupA node (applyEvent st (.disconnect node)).1.activeUsers = none ∧
       (applyEvent st (.disconnect node)).1.lastUser =
         (match lookupA node st.activeUsers with
          | some u => if u = newUserText then st.lastUser else u
          | none => st.lastUser)) ∧
    lookupA ['1'] (applyEvents initState exampleTrace).nodeStatus = none ∧
    lookupA ['1'] (applyEvents initState exampleTrace).activeUsers = none ∧
    (applyEvents initState exampleTrace).lastUser = "bob".toList := by
  refine ⟨fun st node => ⟨?_, ?_, ?_⟩, by decide, by decide, by decide⟩
  · simp [applyEvent, lookupA_erase_self]
  · simp [applyEvent, lookupA_erase_self]
  · simp [applyEvent]

/-- C2 (counterexample): the claimed invariant "the key sets of the session
table and the active-user index are identical after every event" fails
already after a single Connect from the empty state: node 1 is occupied but
has no recorded identity. -/
theorem c2_counterexample :
    (lookupA ['1']
        (applyEvents initState [.connect ['1'] "1.2.3.4".toList]).nodeStatus).isSome = true ∧
    (lookupA ['1']
        (applyEvents initState [.connect ['1'] "1.2.3.4".toList]).activeUsers).isSome = false := by
  decide

/-- C2 (amended): after every event sequence from the empty state, the key
set of the active-user index is contained in the key set of the session
table — only Login records an identity and it records a status under the
same key, while Connect, NewUserSignup, MenuChange and GenericActivity
record a status without an identity, so the two key sets need not be
equal. -/
theorem c2_activeUsers_subset :
    ∀ (es : List Event) (k : Str),
      (lookupA k (applyEvents initState es).activeUsers).isSome = true →
      (lookupA k (applyEvents initState es).nodeStatus).isSome = true := by
  intro es
  exact subKeys_applyEvents es initState (by intro k h; simp [initState, lookupA] at h)

/-- C2 witness: the amended inclusion applied after a Login event. -/
theorem c2_activeUsers_subset_witness :
    (lookupA ['1']
        (applyEvents initState [.login ['1'] "bob".toList]).nodeStatus).isSome = true :=
  c2_activeUsers_subset [.login ['1'] "bob".toList] ['1'] (by decide)

/-- C3 (counterexample): the classifier does not evaluate NewUserSignup
before Login.  On a line matching both `newUserPattern` (node 1) and
`loginPattern` (node 2) the source's chain produces the Login event while
the specified order would produce the NewUserSignup event. -/
theorem c3_counterexample :
    classify trickyLine =
      some (.login ['2'] "New user signing up on node 1".toList) ∧
    specOrderClassify trickyLine = some (.newUserSignup ['1']) ∧
    classify trickyLine ≠ specOrderClassify trickyLine := by
  refine ⟨by decide, by decide, ?_⟩
  decide

/-- C3 (amended): the classifier evaluates its pattern rules in the fixed
priority order Connect > Login > NewUserSignup > MenuChange >
GenericActivity > Disconnect (the source checks `loginPattern` before
`newUserPattern`) and returns the event produced by the first matching
rule. -/
theorem c3_rule_order :
    ∀ l : Str, classify l = firstSome codeRuleOrder l := by
  intro l
  cases h1 : connMatch l with
  | some p =>
      obtain ⟨ip, node⟩ := p
      simp [classify, firstSome, codeRuleOrder, ruleConnect, h1]
  | none =>
  cases h2 : loginMatch l with
  | some p =>
      obtain ⟨user, node⟩ := p
      simp [classify, firstSome, codeRuleOrder, ruleConnect, ruleLogin, h1, h2]
  | none =>
  cases h3 : newUserMatch l with
  | some node =>
      simp [classify, firstSome, codeRuleOrder, ruleConnect, ruleLogin, ruleNewUser,
        h1, h2, h3]
  | none =>
  cases h4 : menuMatch l with
  | some p =>
      obtain ⟨user, menuPath, node⟩ := p
      simp [classify, firstSome, codeRuleOrder, ruleConnect, ruleLogin, ruleNewUser,
        ruleMenu, h1, h2, h3, h4]
  | none =>
  cases h5 : genericMatch l with
  | some p =>
      obtain ⟨user, verb, loc, node⟩ := p
      simp [classify, firstSome, codeRuleOrder, ruleConnect, ruleLogin, ruleNewUser,
        ruleMenu, ruleGeneric, h1, h2, h3, h4, h5]
  | none =>
  cases h6 : disconnectMatch l with
  | some node =>
      simp [classify, firstSome, codeRuleOrder, ruleConnect, ruleLogin, ruleNewUser,
        ruleMenu, ruleGeneric, ruleDisconnect, h1, h2, h3, h4, h5, h6]
  | none =>
      simp [classify, firstSome, codeRuleOrder, ruleConnect, ruleLogin, ruleNewUser,
        ruleMenu, ruleGeneric, ruleDisconnect, h1, h2, h3, h4, h5, h6]

/-- C4: the recomputed daily call count equals the number of lines whose
date prefix is today's and which match a login with a non-excluded user —
each qualifying login counts, not unique users; in particular same-day
logins of alice, bob, alice with bob excluded count 2. -/
theorem c4_daily_count :
    (∀ (exclude today : Str) (lines : List Str),
       countTodaysCallsW exclude today lines =
         (lines.filter (qualifiesToday exclude today)).length) ∧
    countTodaysCallsW "bob".toList "2024-01-02".toList
      [lineAliceA, lineBobB, lineAliceC] = 2 := by
  refine ⟨fun exclude today lines => ?_, by decide⟩
  unfold countTodaysCallsW
  rw [countFold_eq]
  simp

/-- C5 (code behaviour at the failing input): two events for node 3 arriving
between two ticks — a connection then a login, with no tick pending — are
both applied to the store, but the following tick emits nothing at all: the
loop only redraws while handling a line with a tick already pending, and the
per-line `updatedNodes` of each unredrawn line is discarded, so no coalesced
status for node 3 is ever emitted at the next tick. -/
theorem c5_lost_update :
    (runLoop [.line lineConn3, .line lineLogin3, .tick]).emitted = [] ∧
    lookupA ['3'] (runLoop [.line lineConn3, .line lineLogin3, .tick]).st.nodeStatus =
      some ⟨"bob".toList, loggingIn⟩ := by
  refine ⟨by decide, by decide⟩

/-- C6 (counterexample): a login for node 9 processed while a tick is
pending is emitted to the renderer as a row for node 9, although with
`maxNodes = 4` the full-table rows are exactly nodes 1..4 — the incremental
redraw path does not restrict rows to `1..maxNodes`. -/
theorem c6_counterexample :
    (runLoop [.tick, .line lineLogin9]).emitted =
      [[(9, ⟨"carol".toList, loggingIn⟩)]] ∧
    ((drawTableRows 4 (runLoop [.tick, .line lineLogin9]).st.nodeStatus).map
        Prod.fst).contains 9 = false := by
  refine ⟨by decide, by decide⟩

/-- C6 (amended): an event with an out-of-range node id is recorded
internally without error (a login stores its status under the captured
node key for any node id), and the full-table snapshot drawn by `DrawTable`
exposes rows for exactly the node ids `1..maxNodes`; the incremental
`DrawTableRow` redraw path, however, draws the updated node's row even when
its id is out of range. -/
theorem c6_rows_and_recording :
    (∀ (m : Nat) (ns : List (Str × NodeStatus)),
       (drawTableRows m ns).map Prod.fst = List.range' 1 m) ∧
    (∀ (st : WfcState) (node user : Str),
       lookupA node (applyEvent st (.login node user)).1.nodeStatus =
         some ⟨user, loggingIn⟩) := by
  constructor
  · intro m ns
    exact map_pair_fst _ _
  · intro st node user
    simp [applyEvent, lookupA_insert_self]

/-- C7 (counterexample): in the canonical variant (src/unnamed/part_002) an
absent log file at startup is not fatal — the source reports it, creates an
empty log file, and proceeds with an empty log. -/
theorem c7_counterexample :
    startupWfc false [] = .proceed [] ∧
    startupWfc false [] ≠ StartupOutcome.fatal := by
  refine ⟨rfl, by decide⟩

/-- C7 (amended): in the src/main.go variants an absent log file at startup
is fatal before the pipeline starts, while in the src/unnamed/part_002
variant the absence is reported, an empty log file is created, and the
pipeline starts from an empty log. -/
theorem c7_startup_behaviour :
    (∀ logLines : List Str, startupMainGo false logLines = .fatal) ∧
    (∀ logLines : List Str, startupWfc false logLines = .proceed []) := by
  exact ⟨fun _ => rfl, fun _ => rfl⟩

/-- C8 (counterexample): the stored location is not always the input under
the claimed transform.  For the menu path `menus/main.toml` the claimed
formatter yields `At Main`, but the menu-change branch stores
`At Main Menu` (it takes the path's basename and appends ` Menu`). -/
theorem c8_counterexample :
    lookupA ['1']
        (applyEvent initState
          (.menuChange ['1'] "bob".toList "menus/main.toml".toList)).1.nodeStatus =
      some ⟨"bob".toList, "At Main Menu".toList⟩ ∧
    specLocationFormatter "menus/main.toml".toList = "At Main".toList ∧
    ("At Main Menu".toList : Str) ≠ "At Main".toList := by
  refine ⟨by decide, by decide, by decide⟩

/-- C8 (amended): the claimed transform (strip `menu `, strip `menus/`,
strip the literal `.toml` suffix, title-case, prepend `At `) is what the
generic-activity branch stores; the menu-change branch instead stores
`At ` + Title(basename with `.toml` stripped) + ` Menu`, and the login
branch stores the fixed text `logging in...`.  Formatting happens inside
the state update and never changes which event a line classifies as: the
goroutine's branch chain equals classification followed by the per-event
update. -/
theorem c8_location_formatting :
    (∀ (st : WfcState) (node user verb loc : Str),
       lookupA node
           (applyEvent st (.genericActivity node user verb loc)).1.nodeStatus =
         some ⟨user, formatGenericLocation loc⟩) ∧
    (∀ (st : WfcState) (node user menuPath : Str),
       lookupA node
           (applyEvent st (.menuChange node user menuPath)).1.nodeStatus =
         some ⟨user, formatMenuLocation menuPath⟩) ∧
    (∀ (st : WfcState) (node user : Str),
       lookupA node (applyEvent st (.login node user)).1.nodeStatus =
         some ⟨user, loggingIn⟩) ∧
    (∀ (st : WfcState) (line : Str),
       processLine st line =
         match classify line with
         | some e => applyEvent st e
         | none => (st, [])) := by
  refine ⟨?_, ?_, ?_, processLine_eq⟩
  · intro st node user verb loc
    simp [applyEvent, formatGenericLocation, lookupA_insert_self]
  · intro st node user menuPath
    simp [applyEvent, formatMenuLocation, lookupA_insert_self]
  · intro st node user
    simp [applyEvent, lookupA_insert_self]

/-- C9: classification is total by construction (every matcher is a total
function of the line), and a line matching none of the patterns produces no
event and leaves the session state unchanged, with nothing marked for
redraw. -/
theorem c9_no_match_no_change :
    ∀ (st : WfcState) (line : Str),
      classify line = none → processLine st line = (st, []) := by
  intro st line h
  rw [processLine_eq, h]

/-- C9 witness: a malformed line classifies to nothing and changes
nothing. -/
theorem c9_no_match_no_change_witness :
    classify "hello world".toList = none ∧
    processLine initState "hello world".toList = (initState, []) :=
  ⟨by decide, c9_no_match_no_change initState "hello world".toList (by decide)⟩

/-- C10: when the startup scan window contains no disconnect event whose
node has a login event at an earlier (or the same) line — in particular for
an empty log — the initial last-logged-off user is the sentinel `None`, and
when the log file cannot be opened the scan likewise returns `None`. -/
theorem c10_initial_last_user_none :
    (∀ (lines : List Str) (numLines : Nat),
       pairScan [] (lines.drop (lines.length - numLines)) = false →
       findLastLoggedOffUser lines numLines = noneUser) ∧
    (∀ numLines : Nat, findLastLoggedOffUser [] numLines = noneUser) ∧
    (∀ numLines : Nat, findLastLoggedOffUserFromFile none numLines = noneUser) := by
  refine ⟨?_, fun _ => by simp [findLastLoggedOffUser], fun _ => rfl⟩
  intro lines numLines hps
  unfold findLastLoggedOffUser
  exact scanFold_of_pairScan _ [] [] noneUser
    (by intro n h; simp [lookupA] at h) hps

/-- C10 witness: a window with a single unmatching line yields `None`. -/
theorem c10_initial_last_user_none_witness :
    findLastLoggedOffUser ["hello world".toList] 5 = noneUser :=
  c10_initial_last_user_none.1 ["hello world".toList] 5 (by decide)

end TalismanWfc
